import Mathlib

/-!
Shallow embedding of the `ugradio` doppler/precession routines
(`src/ugdoppler/precess.py`, `src/ugdoppler/ugdoppler.py`) over the reals,
together with theorems settling the specification claims.

Numpy 1-D arrays are embedded as `List ℝ`; elementwise binary operations with
numpy's 1-D broadcasting rules are `broadcast2`; assignment of a 1-D value into
a fixed-length slice (`x[k, :] = v`) is `assignRow`.  A raised Python/numpy
exception is embedded as `none`.  `np.arctan2 y x` is the argument of the
complex number `x + y i` in `(-π, π]`, embedded via `Complex.arg`.
-/

noncomputable section

open scoped Classical

/-- `dtor = np.pi/180.` from `ugdoppler.py` (also `deg_to_rad` in `precess.py`). -/
def dtor : ℝ := Real.pi / 180

/-- A 3-component Cartesian vector (direction cosines / velocity vector). -/
structure Vec3 where
  x : ℝ
  y : ℝ
  z : ℝ

/-- `np.sum(a * b)` for two 3-vectors: the dot product, summed left to right. -/
def dot3 (a b : Vec3) : ℝ := a.x * b.x + a.y * b.y + a.z * b.z

/-- A 3×3 matrix given by its three rows. -/
structure Mat3 where
  r0 : Vec3
  r1 : Vec3
  r2 : Vec3

/-- `np.arctan2 y x`: the angle of the point `(x, y)` in `(-π, π]`. -/
def arctan2 (y x : ℝ) : ℝ := Complex.arg (x + y * Complex.I)

/-- Elementwise binary operation on two 1-D numpy arrays with numpy's
broadcasting rule: lengths must agree, or one operand must have length 1 and is
then repeated.  Any other shape combination raises, embedded as `none`. -/
def broadcast2 (f : ℝ → ℝ → ℝ) (xs ys : List ℝ) : Option (List ℝ) :=
  if xs.length = ys.length then some (List.zipWith f xs ys)
  else if xs.length = 1 then some (ys.map (fun b => f (xs.headD 0) b))
  else if ys.length = 1 then some (xs.map (fun a => f a (ys.headD 0)))
  else none

/-- Assignment `x[k, :] = v` of a 1-D value `v` into a row of length `n`:
the value must have length `n`, or length 1 (broadcast across the row);
otherwise numpy raises, embedded as `none`. -/
def assignRow (n : ℕ) (xs : List ℝ) : Option (List ℝ) :=
  if xs.length = n then some xs
  else if xs.length = 1 then some (List.replicate n (xs.headD 0))
  else none

/-- Row-by-row application of a 3×3 matrix to a 3×N array of column vectors
(`np.dot(r, x)`), with the 3×N array given as its three rows. -/
def lin3 (c : Vec3) (x0 x1 x2 : List ℝ) : List ℝ :=
  List.zipWith (fun u v => u + v)
    (List.zipWith (fun u v => u + v)
      (x0.map (fun t => c.x * t)) (x1.map (fun t => c.y * t)))
    (x2.map (fun t => c.z * t))

/-- Modelled from the spec: the repository's `precess.py` and `ugdoppler.py`
call `premat`, but `premat.py` is not among the provided sources.  Per spec
section 4.1, `premat` converts the epoch pair into a time interval (and, for
FK4, an interval from a fixed reference epoch) in centuries, evaluates the
standard polynomial expressions for the three Euler precession angles using the
FK4 (Newcomb, via Taff 1983) or FK5 (IAU 1976 / Astronomical Almanac) constant
sets, and builds the rotation matrix from three elementary rotations; at equal
epochs the interval is zero, every angle vanishes and the matrix is the
identity. -/
def premat (equinox1 equinox2 : ℝ) (fk4 : Bool) : Mat3 :=
  let deg_to_rad := Real.pi / 180
  let sec_to_rad := deg_to_rad / 3600
  let t := 0.001 * (equinox2 - equinox1)
  let st := if fk4 then 0.001 * (equinox1 - 1900) else 0.001 * (equinox1 - 2000)
  let A := if fk4 then
      sec_to_rad * t *
        (23042.53 + st * (139.75 + 0.06 * st) + t * (30.23 - 0.27 * st + 18.0 * t))
    else
      sec_to_rad * t *
        (23062.181 + st * (139.656 + 0.0139 * st) + t * (30.188 - 0.344 * st + 17.998 * t))
  let B := if fk4 then sec_to_rad * t * t * (79.27 + 0.66 * st + 0.32 * t) + A
    else sec_to_rad * t * t * (79.280 + 0.410 * st + 0.205 * t) + A
  let C := if fk4 then
      sec_to_rad * t *
        (20046.85 - st * (85.33 + 0.37 * st) + t * (-42.67 - 0.37 * st - 41.8 * t))
    else
      sec_to_rad * t *
        (20043.109 - st * (85.33 + 0.217 * st) + t * (-42.665 - 0.217 * st - 41.833 * t))
  let sina := Real.sin A
  let sinb := Real.sin B
  let sinc := Real.sin C
  let cosa := Real.cos A
  let cosb := Real.cos B
  let cosc := Real.cos C
  ⟨⟨cosa * cosb * cosc - sina * sinb, sina * cosb + cosa * sinb * cosc, cosa * sinc⟩,
   ⟨-cosa * sinb - sina * cosb * cosc, cosa * cosb - sina * sinb * cosc, -(sina * sinc)⟩,
   ⟨-(cosb * sinc), -(sinb * sinc), cosc⟩⟩

/-- Shallow embedding of `precess.py`.  Scalar inputs behave as length-1
arrays.  `npts = np.min([len(ra), len(dec)])`; in degree mode both inputs are
scaled by `deg_to_rad`, while in radian mode `float(ra)`/`float(dec)` are
applied, which succeed only on a scalar or a length-1 array (any longer array
raises `TypeError`, embedded as `none`).  Direction cosines are built, rotated
by `premat`, and converted back; only the degree branch normalizes a negative
right ascension by adding 360. -/
def precess (ra dec : List ℝ) (equinox1 equinox2 : ℝ) (FK4 : Bool) (radian : Bool) :
    Option (List ℝ × List ℝ) :=
  let npts := min ra.length dec.length
  (if radian then
      (if ra.length = 1 ∧ dec.length = 1 then some (ra, dec) else none)
    else
      some (ra.map (fun t => t * dtor), dec.map (fun t => t * dtor))).bind fun rd =>
  let ra_rad := rd.1
  let dec_rad := rd.2
  let a := dec_rad.map Real.cos
  (broadcast2 (fun u v => u * v) a (ra_rad.map Real.cos)).bind fun x0r =>
  (assignRow npts x0r).bind fun x0 =>
  (broadcast2 (fun u v => u * v) a (ra_rad.map Real.sin)).bind fun x1r =>
  (assignRow npts x1r).bind fun x1 =>
  (assignRow npts (dec_rad.map Real.sin)).bind fun x2 =>
  let r := premat equinox1 equinox2 FK4
  let y0 := lin3 r.r0 x0 x1 x2
  let y1 := lin3 r.r1 x0 x1 x2
  let y2 := lin3 r.r2 x0 x1 x2
  let ra_rad2 := List.zipWith arctan2 y1 y0
  let dec_rad2 := y2.map Real.arcsin
  if radian then some (ra_rad2, dec_rad2)
  else
    let raDeg := ra_rad2.map (fun t => t / dtor)
    some (raDeg.map (fun t => t + (if t < 0 then (1 : ℝ) else 0) * 360),
          dec_rad2.map (fun t => t / dtor))

/-- The per-element mathematical content of `precess`: one (ra, dec) pair
converted to direction cosines, rotated by `premat`, converted back, with the
degree branch normalizing negative right ascension. -/
def precessPoint (a d equinox1 equinox2 : ℝ) (FK4 : Bool) (radian : Bool) : ℝ × ℝ :=
  let aR := if radian then a else a * dtor
  let dR := if radian then d else d * dtor
  let x : Vec3 := ⟨Real.cos dR * Real.cos aR, Real.cos dR * Real.sin aR, Real.sin dR⟩
  let r := premat equinox1 equinox2 FK4
  let a2 := arctan2 (dot3 r.r1 x) (dot3 r.r0 x)
  let d2 := Real.arcsin (dot3 r.r2 x)
  if radian then (a2, d2)
  else (a2 / dtor + (if a2 / dtor < 0 then (1 : ℝ) else 0) * 360, d2 / dtor)

/-- The observable side effects of a `ugdoppler` call beyond its return value:
the `print` of the defaulting notice (ugdoppler.py line 125) and the
`pdb.set_trace()` interactive breakpoint (line 146). -/
inductive Effect where
  | printDefaultNotice : Effect
  | debugBreakpoint : Effect
deriving DecidableEq, Repr

/-- Python truthiness of an optional float keyword argument: `None` and `0.0`
are falsy, every other float is truthy. -/
def pyTruthy : Option ℝ → Prop
  | none => False
  | some v => v ≠ 0

/-- The observer-location resolution of `ugdoppler.py` lines 117-124: the
Campbell Hall coordinates are the default, replaced by `(nlat, wlong)` exactly
when `if nlat and wlong:` holds, i.e. when both are given and both nonzero. -/
def resolveObspos (nlat wlong : Option ℝ) : ℝ × ℝ :=
  if pyTruthy nlat ∧ pyTruthy wlong then (nlat.getD 0, wlong.getD 0)
  else (37.8732, 122.2573)

/-- The two external collaborators of `ugdoppler`: `baryvel(julday, epoch)`
returning the heliocentric Earth velocity and the barycentric correction
vector, and `rlab.getLST(juldate, lon)` returning the local sidereal time,
vectorized over the Julian-day array. -/
structure Oracles where
  baryvel : ℝ → ℝ → Vec3 × Vec3
  getLST : List ℝ → ℝ → List ℝ

/-- One iteration of the orbital loop of `ugdoppler.py` lines 88-91: index the
Julian-day array (an out-of-range index raises, embedded as `none`), call
`baryvel`, and project both velocity vectors onto the source direction. -/
def orbitStep (O : Oracles) (julday xx0 xx1 xx2 : List ℝ) (NR : ℕ) : Option (ℝ × ℝ) :=
  (julday[NR]?).bind fun jd =>
    let bv := O.baryvel jd 2000
    let col : Vec3 := ⟨xx0.getD NR 0, xx1.getD NR 0, xx2.getD NR 0⟩
    some (dot3 bv.1 col, dot3 bv.2 col)

/-- `for NR in range(n)` accumulating one optional value per iteration;
a raised exception in any iteration aborts the whole loop. -/
def rangeLoop {α : Type} (f : ℕ → Option α) : ℕ → Option (List α)
  | 0 => some []
  | n + 1 => (rangeLoop f n).bind fun acc => (f n).bind fun a => some (acc ++ [a])

/-- The LSR section of `ugdoppler.py` lines 98-107: the 1900-epoch solar apex
(ra = 18 h as radians, dec = 30° as radians) precessed to 2000 with
`radian=True`, turned into direction cosines with the extra `np.pi` added to
the X-component's angle, and scaled by 20 km/s. -/
def lsrSection : Option Vec3 :=
  (precess [2 * Real.pi * 18 / 24] [dtor * 30] 1900 2000 false true).bind fun rd =>
  let ralsr_rad := rd.1.headD 0
  let declsr_rad := rd.2.headD 0
  some ⟨20 * (Real.cos declsr_rad * Real.cos (Real.pi + ralsr_rad)),
        20 * (Real.cos declsr_rad * Real.sin ralsr_rad),
        20 * Real.sin declsr_rad⟩

/-- The side effects of a completed `ugdoppler` call, in order: the `print` of
the default-location notice (ugdoppler.py line 125) exactly when the explicit
coordinates are not both truthy, then the always-reached `pdb.set_trace()`
breakpoint (line 146). -/
def effsOf (nlat wlong : Option ℝ) : List Effect :=
  (if pyTruthy nlat ∧ pyTruthy wlong then [] else [Effect.printDefaultNotice]) ++
    [Effect.debugBreakpoint]

/-- Shallow embedding of `ugdoppler.py`: the returned matrix.  `nin = len(ra)`;
no comparison with the lengths of `dec` and `julday` is ever made — shape
problems surface (or not) only through numpy broadcasting and array indexing
during the computation.  The value is that of the single `return vtotal`
statement. -/
noncomputable def ugdopplerV (O : Oracles) (ra dec julday : List ℝ)
    (nlat wlong : Option ℝ) (light : Bool) : Option (List (List ℝ)) :=
  let nin := ra.length
  let rasource := ra.map (fun t => t * 15 * dtor)
  let decsource := dec.map (fun t => t * dtor)
  (broadcast2 (fun u v => u * v) (decsource.map Real.cos) (rasource.map Real.cos)).bind fun s0 =>
  (assignRow nin s0).bind fun xx0 =>
  (broadcast2 (fun u v => u * v) (decsource.map Real.cos) (rasource.map Real.sin)).bind fun s1 =>
  (assignRow nin s1).bind fun xx1 =>
  (assignRow nin (decsource.map Real.sin)).bind fun xx2 =>
  (rangeLoop (orbitStep O julday xx0 xx1 xx2) nin).bind fun orb =>
  let pvorbit_helio := orb.map Prod.fst
  let pvorbit_bary := orb.map Prod.snd
  lsrSection.bind fun vvlsr =>
  let pvlsr := (List.range nin).map fun NR =>
    dot3 vvlsr ⟨xx0.getD NR 0, xx1.getD NR 0, xx2.getD NR 0⟩
  let obspos_deg := resolveObspos nlat wlong
  let lat := obspos_deg.1
  let lst_mean := O.getLST julday (-obspos_deg.2)
  (broadcast2 (fun u v => u - v) lst_mean ra).bind fun dlst =>
  (broadcast2 (fun u v => u * v)
      ((decsource.map Real.cos).map (fun t => -0.465 * Real.cos (dtor * lat) * t))
      (dlst.map (fun t => Real.sin (t * 15 * dtor)))).bind fun pvspin =>
  (assignRow nin (pvspin.map (fun t => -t))).bind fun row0 =>
  (broadcast2 (fun u v => u - v) (pvspin.map (fun t => -t)) pvorbit_helio).bind fun s2 =>
  (assignRow nin s2).bind fun row1 =>
  (broadcast2 (fun u v => u - v) (pvspin.map (fun t => -t)) pvorbit_bary).bind fun s3 =>
  (assignRow nin s3).bind fun row2 =>
  (broadcast2 (fun u v => u - v) s3 pvlsr).bind fun s4 =>
  (assignRow nin s4).bind fun row3 =>
  let vtotal := [row0, row1, row2, row3]
  let vtotal :=
    if light then vtotal.map (fun row => row.map (fun t => t / 2.99792458e5)) else vtotal
  some vtotal

/-- A `ugdoppler` call as observed by the caller and the environment: the
returned matrix (`ugdopplerV`) paired with the ordered list of side effects the
completed call performed (`effsOf`); a raised exception is `none`. -/
noncomputable def ugdoppler (O : Oracles) (ra dec julday : List ℝ)
    (nlat wlong : Option ℝ) (light : Bool) :
    Option (List (List ℝ) × List Effect) :=
  (ugdopplerV O ra dec julday nlat wlong light).map fun vtotal =>
    (vtotal, effsOf nlat wlong)

/-- The unit direction cosines of source `i` of a batch
(`xxsource[:, i]` of `ugdoppler.py` lines 76-79). -/
def xxsrc (ra dec : List ℝ) (i : ℕ) : Vec3 :=
  ⟨Real.cos (dec.getD i 0 * dtor) * Real.cos (ra.getD i 0 * 15 * dtor),
   Real.cos (dec.getD i 0 * dtor) * Real.sin (ra.getD i 0 * 15 * dtor),
   Real.sin (dec.getD i 0 * dtor)⟩

/-- The projected heliocentric orbital velocity of sample `i`
(`pvorbit_helio[NR]`, ugdoppler.py line 90). -/
def pvorbitHelioAt (O : Oracles) (ra dec julday : List ℝ) (i : ℕ) : ℝ :=
  dot3 (O.baryvel (julday.getD i 0) 2000).1 (xxsrc ra dec i)

/-- The projected barycentric orbital velocity of sample `i`
(`pvorbit_bary[NR]`, ugdoppler.py line 91). -/
def pvorbitBaryAt (O : Oracles) (ra dec julday : List ℝ) (i : ℕ) : ℝ :=
  dot3 (O.baryvel (julday.getD i 0) 2000).2 (xxsrc ra dec i)

/-- The precessed 2000-epoch right ascension of the LSR solar apex
(`ralsr_rad` after ugdoppler.py line 100). -/
def lsrRa2000 : ℝ := (precessPoint (2 * Real.pi * 18 / 24) (dtor * 30) 1900 2000 false true).1

/-- The precessed 2000-epoch declination of the LSR solar apex
(`declsr_rad` after ugdoppler.py line 100). -/
def lsrDec2000 : ℝ := (precessPoint (2 * Real.pi * 18 / 24) (dtor * 30) 1900 2000 false true).2

/-- The fixed solar-motion velocity vector `vvlsr = 20.*xxlsr` of
ugdoppler.py lines 103-107, a constant of the program: 20 km/s toward the
precessed apex, with the X-component built from `cos(np.pi + ralsr_rad)`. -/
def vvlsrConst : Vec3 :=
  ⟨20 * (Real.cos lsrDec2000 * Real.cos (Real.pi + lsrRa2000)),
   20 * (Real.cos lsrDec2000 * Real.sin lsrRa2000),
   20 * Real.sin lsrDec2000⟩

/-- The projected LSR solar motion of sample `i`
(`pvlsr[NR]`, ugdoppler.py line 110). -/
def pvlsrAt (ra dec : List ℝ) (i : ℕ) : ℝ := dot3 vvlsrConst (xxsrc ra dec i)

/-- The projected Earth-spin velocity of sample `i`
(`pvspin`, ugdoppler.py line 134). -/
def pvspinAt (O : Oracles) (ra dec julday : List ℝ) (nlat wlong : Option ℝ) (i : ℕ) : ℝ :=
  let lat := (resolveObspos nlat wlong).1
  let lst := O.getLST julday (-(resolveObspos nlat wlong).2);
  -0.465 * Real.cos (dtor * lat) * Real.cos (dec.getD i 0 * dtor) *
    Real.sin ((lst.getD i 0 - ra.getD i 0) * 15 * dtor)

/-- A concrete instantiation of the external collaborators, used to exercise
the embedding on closed inputs. -/
def zeroOracles : Oracles :=
  ⟨fun _ _ => (⟨0, 0, 0⟩, ⟨0, 0, 0⟩), fun js _ => js.map (fun _ => 0)⟩

theorem getD_map_of_lt (f : ℝ → ℝ) (l : List ℝ) (i : ℕ) (h : i < l.length) :
    (l.map f).getD i 0 = f (l.getD i 0) := by
  have h2 : i < (l.map f).length := by simpa using h
  simp [List.getD_eq_getElem?_getD, List.getElem?_eq_getElem, h, h2]

theorem getD_zipWith_of_lt (f : ℝ → ℝ → ℝ) (l l2 : List ℝ) (i : ℕ)
    (h : i < l.length) (h2 : i < l2.length) :
    (List.zipWith f l l2).getD i 0 = f (l.getD i 0) (l2.getD i 0) := by
  have h3 : i < (List.zipWith f l l2).length := by
    simp [List.length_zipWith]; omega
  simp [List.getD_eq_getElem?_getD, List.getElem?_eq_getElem, h, h2, h3,
    List.getElem_zipWith]

theorem getD_range_map (g : ℕ → ℝ) (n i : ℕ) (h : i < n) :
    ((List.range n).map g).getD i 0 = g i := by
  have h2 : i < ((List.range n).map g).length := by simpa using h
  have h3 : i < (List.range n).length := by simpa using h
  simp [List.getD_eq_getElem?_getD, List.getElem?_eq_getElem, h2, h3,
    List.length_range, h]

theorem getElem?_eq_some_getD (l : List ℝ) (i : ℕ) (h : i < l.length) :
    l[i]? = some (l.getD i 0) := by
  simp [List.getElem?_eq_getElem, h, List.getD_eq_getElem?_getD]

theorem broadcast2_eq_zipWith (f : ℝ → ℝ → ℝ) {xs ys : List ℝ}
    (h : xs.length = ys.length) :
    broadcast2 f xs ys = some (List.zipWith f xs ys) := by
  simp [broadcast2, h]

theorem assignRow_eq_self {n : ℕ} {xs : List ℝ} (h : xs.length = n) :
    assignRow n xs = some xs := by
  simp [assignRow, h]

theorem broadcast2_one_left (f : ℝ → ℝ → ℝ) {xs ys : List ℝ} (h1 : xs.length = 1)
    (hne : ¬ xs.length = ys.length) :
    broadcast2 f xs ys = some (ys.map (fun b => f (xs.headD 0) b)) := by
  unfold broadcast2
  rw [if_neg hne, if_pos h1]

theorem assignRow_one {n : ℕ} {xs : List ℝ} (h1 : xs.length = 1)
    (hne : ¬ xs.length = n) :
    assignRow n xs = some (List.replicate n (xs.headD 0)) := by
  unfold assignRow
  rw [if_neg hne, if_pos h1]

theorem rangeLoop_eq_map {α : Type} (f : ℕ → Option α) (g : ℕ → α) :
    ∀ n : ℕ, (∀ i, i < n → f i = some (g i)) →
      rangeLoop f n = some ((List.range n).map g)
  | 0, _ => by simp [rangeLoop]
  | n + 1, h => by
    have ih := rangeLoop_eq_map f g n (fun i hi => h i (Nat.lt_succ_of_lt hi))
    simp [rangeLoop, ih, h n (Nat.lt_succ_self n), List.range_succ]

/-- At equal epochs the precession interval is zero, all three Euler angles
vanish, and the (spec-modelled) precession matrix is the identity. -/
theorem premat_self (E : ℝ) (fk4 : Bool) :
    premat E E fk4 = ⟨⟨1, 0, 0⟩, ⟨0, 1, 0⟩, ⟨0, 0, 1⟩⟩ := by
  cases fk4 <;> simp [premat, sub_self]

/-- In radian mode `precess` accepts scalar (length-1) input and then computes
exactly the per-point transform `precessPoint`. -/
theorem precess_radian_scalar (a d e1 e2 : ℝ) (fk4 : Bool) :
    precess [a] [d] e1 e2 fk4 true =
      some ([(precessPoint a d e1 e2 fk4 true).1],
            [(precessPoint a d e1 e2 fk4 true).2]) := by
  simp [precess, precessPoint, broadcast2, assignRow, lin3, dot3, arctan2]

/-- The value computed by degree-mode `precess` on equal-length inputs, as an
explicit pair of lists. -/
noncomputable def precessDeg (ra dec : List ℝ) (e1 e2 : ℝ) (fk4 : Bool) :
    List ℝ × List ℝ :=
  let ra_rad := ra.map (fun t => t * dtor)
  let dec_rad := dec.map (fun t => t * dtor)
  let a := dec_rad.map Real.cos
  let x0 := List.zipWith (fun u v => u * v) a (ra_rad.map Real.cos)
  let x1 := List.zipWith (fun u v => u * v) a (ra_rad.map Real.sin)
  let x2 := dec_rad.map Real.sin
  let r := premat e1 e2 fk4
  let ra2 := List.zipWith arctan2 (lin3 r.r1 x0 x1 x2) (lin3 r.r0 x0 x1 x2)
  let dec2 := (lin3 r.r2 x0 x1 x2).map Real.arcsin
  ((ra2.map (fun t => t / dtor)).map (fun t => t + (if t < 0 then (1 : ℝ) else 0) * 360),
   dec2.map (fun t => t / dtor))

/-- Degree-mode `precess` on equal-length vector inputs succeeds and returns
`precessDeg`. -/
theorem precess_deg_eq {ra dec : List ℝ} (hl : ra.length = dec.length)
    (e1 e2 : ℝ) (fk4 : Bool) :
    precess ra dec e1 e2 fk4 false = some (precessDeg ra dec e1 e2 fk4) := by
  simp [precess, precessDeg, broadcast2_eq_zipWith, assignRow_eq_self, hl,
    List.length_zipWith, List.length_map, min_self]

theorem lin3_length (c : Vec3) (x0 x1 x2 : List ℝ) :
    (lin3 c x0 x1 x2).length = min (min x0.length x1.length) x2.length := by
  simp [lin3, List.length_zipWith, List.length_map]

theorem lin3_getD (c : Vec3) (x0 x1 x2 : List ℝ) (i : ℕ)
    (h0 : i < x0.length) (h1 : i < x1.length) (h2 : i < x2.length) :
    (lin3 c x0 x1 x2).getD i 0 =
      c.x * x0.getD i 0 + c.y * x1.getD i 0 + c.z * x2.getD i 0 := by
  unfold lin3
  rw [getD_zipWith_of_lt, getD_zipWith_of_lt, getD_map_of_lt, getD_map_of_lt,
    getD_map_of_lt]
  all_goals simp [List.length_zipWith, List.length_map, lt_min_iff, h0, h1, h2]

theorem precessDeg_length {ra dec : List ℝ} (hl : ra.length = dec.length)
    (e1 e2 : ℝ) (fk4 : Bool) :
    (precessDeg ra dec e1 e2 fk4).1.length = ra.length ∧
      (precessDeg ra dec e1 e2 fk4).2.length = ra.length := by
  constructor <;>
    simp [precessDeg, lin3_length, List.length_zipWith, List.length_map, hl, min_self]

theorem precessDeg_getD {ra dec : List ℝ} (hl : ra.length = dec.length)
    (e1 e2 : ℝ) (fk4 : Bool) (i : ℕ) (hi : i < ra.length) :
    (precessDeg ra dec e1 e2 fk4).1.getD i 0 =
      (precessPoint (ra.getD i 0) (dec.getD i 0) e1 e2 fk4 false).1 ∧
    (precessDeg ra dec e1 e2 fk4).2.getD i 0 =
      (precessPoint (ra.getD i 0) (dec.getD i 0) e1 e2 fk4 false).2 := by
  have hd : i < dec.length := hl ▸ hi
  simp only [precessDeg]
  constructor <;>
    simp only [getD_map_of_lt, getD_zipWith_of_lt, lin3_getD,
      List.length_zipWith, List.length_map, lin3_length, lt_min_iff, hi, hd,
      and_self] <;>
    simp [precessPoint, dot3]

theorem lsrSection_eq : lsrSection = some vvlsrConst := by
  rw [lsrSection, precess_radian_scalar]
  simp [vvlsrConst, lsrRa2000, lsrDec2000]

theorem list_eq_of_getD (l1 l2 : List ℝ) (h : l1.length = l2.length)
    (he : ∀ i, i < l1.length → l1.getD i 0 = l2.getD i 0) : l1 = l2 := by
  apply List.ext_getElem h
  intro i h1 h2
  have h3 := he i h1
  simpa [List.getD_eq_getElem?_getD, List.getElem?_eq_getElem, h1, h2] using h3

noncomputable def ugdopplerRows (O : Oracles) (ra dec julday : List ℝ)
    (nlat wlong : Option ℝ) : List (List ℝ) :=
  [(List.range ra.length).map (fun i => -pvspinAt O ra dec julday nlat wlong i),
   (List.range ra.length).map (fun i =>
      -pvspinAt O ra dec julday nlat wlong i - pvorbitHelioAt O ra dec julday i),
   (List.range ra.length).map (fun i =>
      -pvspinAt O ra dec julday nlat wlong i - pvorbitBaryAt O ra dec julday i),
   (List.range ra.length).map (fun i =>
      -pvspinAt O ra dec julday nlat wlong i - pvorbitBaryAt O ra dec julday i -
        pvlsrAt ra dec i)]

theorem ugdopplerV_eq (O : Oracles) (ra dec julday : List ℝ) (nlat wlong : Option ℝ)
    (n : ℕ) (hra : ra.length = n) (hdec : dec.length = n) (hjd : julday.length = n)
    (hlst : (O.getLST julday (-(resolveObspos nlat wlong).2)).length = n) :
    ugdopplerV O ra dec julday nlat wlong false =
      some (ugdopplerRows O ra dec julday nlat wlong) := by
  have hOrb : ∀ x0 x1 x2 : List ℝ,
      rangeLoop (orbitStep O julday x0 x1 x2) n =
        some ((List.range n).map fun i =>
          (dot3 (O.baryvel (julday.getD i 0) 2000).1
              ⟨x0.getD i 0, x1.getD i 0, x2.getD i 0⟩,
           dot3 (O.baryvel (julday.getD i 0) 2000).2
              ⟨x0.getD i 0, x1.getD i 0, x2.getD i 0⟩)) := by
    intro x0 x1 x2
    apply rangeLoop_eq_map
    intro i hi
    rw [orbitStep, getElem?_eq_some_getD julday i (by rw [hjd]; exact hi)]
    rfl
  simp only [ugdopplerV, broadcast2_eq_zipWith, assignRow_eq_self, lsrSection_eq,
    Option.some_bind, List.length_map, List.length_zipWith, List.length_range,
    hra, hdec, hjd, hlst, min_self, Bool.false_eq_true, if_false, hOrb,
    List.map_map]
  simp only [ugdopplerRows, Option.some.injEq, List.cons.injEq, and_true]
  refine ⟨?_, ?_, ?_, ?_⟩ <;>
  · apply list_eq_of_getD
    · simp [List.length_zipWith, List.length_map, List.length_range, hra, hdec, hjd,
        hlst, min_self]
    · intro i hi
      have hin : i < n := by
        simpa [List.length_zipWith, List.length_map, List.length_range, hra, hdec,
          hjd, hlst, min_self] using hi
      simp only [getD_map_of_lt, getD_zipWith_of_lt, getD_range_map,
        List.length_zipWith, List.length_map, List.length_range, hra, hdec, hjd,
        hlst, min_self, lt_min_iff, and_self, hin, Function.comp_apply]
      simp only [pvspinAt, pvorbitHelioAt, pvorbitBaryAt, pvlsrAt, xxsrc,
        Function.comp_apply]


theorem ugdoppler_eq (O : Oracles) (ra dec julday : List ℝ) (nlat wlong : Option ℝ)
    (n : ℕ) (hra : ra.length = n) (hdec : dec.length = n) (hjd : julday.length = n)
    (hlst : (O.getLST julday (-(resolveObspos nlat wlong).2)).length = n) :
    ugdoppler O ra dec julday nlat wlong false =
      some (ugdopplerRows O ra dec julday nlat wlong, effsOf nlat wlong) := by
  rw [ugdoppler, ugdopplerV_eq O ra dec julday nlat wlong n hra hdec hjd hlst,
    Option.map_some']

/-- C10: in `ugdoppler` an explicitly supplied observer location is used only
when both `nlat` and `wlong` are truthy; if either supplied coordinate equals
0 the pair is ignored and the hardcoded default observatory
(37.8732, 122.2573) is used instead. -/
theorem C10_observer_truthiness (nl w : Option ℝ) :
    resolveObspos (some 0) w = (37.8732, 122.2573) ∧
    resolveObspos nl (some 0) = (37.8732, 122.2573) ∧
    ∀ a b : ℝ, a ≠ 0 → b ≠ 0 → resolveObspos (some a) (some b) = (a, b) := by
  refine ⟨by simp [resolveObspos, pyTruthy], by simp [resolveObspos, pyTruthy], ?_⟩
  intro a b ha hb
  simp [resolveObspos, pyTruthy, ha, hb]

theorem C10_observer_truthiness_witness :
    ((37.8 : ℝ) ≠ 0 ∧ (122.25 : ℝ) ≠ 0) ∧
    resolveObspos (some (37.8 : ℝ)) (some (122.25 : ℝ)) = (37.8, 122.25) ∧
    resolveObspos (some 0) (some (122.25 : ℝ)) = (37.8732, 122.2573) :=
  ⟨⟨by norm_num, by norm_num⟩,
   (C10_observer_truthiness (some 37.8) (some 122.25)).2.2 37.8 122.25
     (by norm_num) (by norm_num),
   (C10_observer_truthiness (some 37.8) (some 122.25)).1⟩

/-- C1: for every equal-length batch of observation samples, the rows of the
matrix returned by `ugdoppler` combine the per-sample projected contributions
exactly as geocentric = -pvspin, heliocentric = -pvspin - pvorbit_helio,
barycentric = -pvspin - pvorbit_bary, LSR = -pvspin - pvorbit_bary - pvlsr. -/
theorem C1_velocity_combination (O : Oracles) (ra dec julday : List ℝ)
    (nlat wlong : Option ℝ) (n : ℕ) (hra : ra.length = n) (hdec : dec.length = n)
    (hjd : julday.length = n)
    (hlst : (O.getLST julday (-(resolveObspos nlat wlong).2)).length = n) :
    ∃ M effs, ugdoppler O ra dec julday nlat wlong false = some (M, effs) ∧
      M.length = 4 ∧
      ∀ i, i < n →
        (M.getD 0 []).getD i 0 = -pvspinAt O ra dec julday nlat wlong i ∧
        (M.getD 1 []).getD i 0 =
          -pvspinAt O ra dec julday nlat wlong i - pvorbitHelioAt O ra dec julday i ∧
        (M.getD 2 []).getD i 0 =
          -pvspinAt O ra dec julday nlat wlong i - pvorbitBaryAt O ra dec julday i ∧
        (M.getD 3 []).getD i 0 =
          -pvspinAt O ra dec julday nlat wlong i - pvorbitBaryAt O ra dec julday i -
            pvlsrAt ra dec i := by
  refine ⟨ugdopplerRows O ra dec julday nlat wlong, effsOf nlat wlong,
    ugdoppler_eq O ra dec julday nlat wlong n hra hdec hjd hlst, rfl, ?_⟩
  intro i hi
  simp only [ugdopplerRows]
  refine ⟨?_, ?_, ?_, ?_⟩ <;> simp [getD_range_map, hra, hi]

theorem C1_velocity_combination_witness :
    (zeroOracles.getLST [(0 : ℝ)] (-(resolveObspos none none).2)).length = 1 ∧
    (∃ M effs, ugdoppler zeroOracles [0] [0] [0] none none false = some (M, effs) ∧
      M.length = 4 ∧
      ∀ i, i < 1 →
        (M.getD 0 []).getD i 0 = -pvspinAt zeroOracles [0] [0] [0] none none i ∧
        (M.getD 1 []).getD i 0 =
          -pvspinAt zeroOracles [0] [0] [0] none none i -
            pvorbitHelioAt zeroOracles [0] [0] [0] i ∧
        (M.getD 2 []).getD i 0 =
          -pvspinAt zeroOracles [0] [0] [0] none none i -
            pvorbitBaryAt zeroOracles [0] [0] [0] i ∧
        (M.getD 3 []).getD i 0 =
          -pvspinAt zeroOracles [0] [0] [0] none none i -
            pvorbitBaryAt zeroOracles [0] [0] [0] i - pvlsrAt [0] [0] i) :=
  ⟨by simp [zeroOracles],
   C1_velocity_combination zeroOracles [0] [0] [0] none none 1 rfl rfl rfl
     (by simp [zeroOracles])⟩

/-- C2: the LSR solar-motion apex (RA = 18 h, Dec = +30°, 20 km/s, epoch-1900)
is precessed from 1900.0 to 2000.0 by one fixed `precess` call — the resulting
velocity vector is the program constant `vvlsrConst`, independent of the
samples — its direction-cosine X-component is built with cos(π + ra) rather
than cos(ra), it is scaled by 20 km/s, and each sample's pvlsr contribution is
its projection onto that sample's source direction. -/
theorem C2_lsr_apex (O : Oracles) (ra dec julday : List ℝ)
    (nlat wlong : Option ℝ) (n : ℕ) (hra : ra.length = n) (hdec : dec.length = n)
    (hjd : julday.length = n)
    (hlst : (O.getLST julday (-(resolveObspos nlat wlong).2)).length = n) :
    precess [2 * Real.pi * 18 / 24] [dtor * 30] 1900 2000 false true =
      some ([lsrRa2000], [lsrDec2000]) ∧
    vvlsrConst = ⟨20 * (Real.cos lsrDec2000 * Real.cos (Real.pi + lsrRa2000)),
                  20 * (Real.cos lsrDec2000 * Real.sin lsrRa2000),
                  20 * Real.sin lsrDec2000⟩ ∧
    ∃ M effs, ugdoppler O ra dec julday nlat wlong false = some (M, effs) ∧
      ∀ i, i < n →
        (M.getD 3 []).getD i 0 =
          -pvspinAt O ra dec julday nlat wlong i - pvorbitBaryAt O ra dec julday i -
            dot3 vvlsrConst (xxsrc ra dec i) := by
  refine ⟨by rw [precess_radian_scalar]; rfl, rfl,
    ugdopplerRows O ra dec julday nlat wlong, effsOf nlat wlong,
    ugdoppler_eq O ra dec julday nlat wlong n hra hdec hjd hlst, ?_⟩
  intro i hi
  simp only [ugdopplerRows, pvlsrAt]
  simp [getD_range_map, hra, hi, pvlsrAt]

theorem C2_lsr_apex_witness :
    (zeroOracles.getLST [(1 : ℝ)] (-(resolveObspos none none).2)).length = 1 ∧
    (precess [2 * Real.pi * 18 / 24] [dtor * 30] 1900 2000 false true =
      some ([lsrRa2000], [lsrDec2000]) ∧
    vvlsrConst = ⟨20 * (Real.cos lsrDec2000 * Real.cos (Real.pi + lsrRa2000)),
                  20 * (Real.cos lsrDec2000 * Real.sin lsrRa2000),
                  20 * Real.sin lsrDec2000⟩ ∧
    ∃ M effs, ugdoppler zeroOracles [1] [1] [1] none none false = some (M, effs) ∧
      ∀ i, i < 1 →
        (M.getD 3 []).getD i 0 =
          -pvspinAt zeroOracles [1] [1] [1] none none i -
            pvorbitBaryAt zeroOracles [1] [1] [1] i -
            dot3 vvlsrConst (xxsrc [1] [1] i)) :=
  ⟨by simp [zeroOracles],
   C2_lsr_apex zeroOracles [1] [1] [1] none none 1 rfl rfl rfl
     (by simp [zeroOracles])⟩


/-- C9 (amended): `ugdoppler` is a pure deterministic function of its inputs in
its returned matrix, but a call is not free of I/O and debugging effects: every
completed call prints the defaulting notice exactly when the explicit location
is not both-truthy, and always reaches the `pdb.set_trace()` interactive
breakpoint before returning. -/
theorem C9_effects (O : Oracles) (ra dec julday : List ℝ) (nlat wlong : Option ℝ)
    (light : Bool) (M : List (List ℝ)) (effs : List Effect)
    (h : ugdoppler O ra dec julday nlat wlong light = some (M, effs)) :
    effs = effsOf nlat wlong := by
  rw [ugdoppler] at h
  cases hv : ugdopplerV O ra dec julday nlat wlong light with
  | none => rw [hv] at h; simp at h
  | some m =>
    rw [hv, Option.map_some', Option.some.injEq] at h
    exact (congrArg Prod.snd h).symm

theorem C9_effects_witness :
    ugdoppler zeroOracles [2] [2] [2] (some 1) (some 1) false =
      some (ugdopplerRows zeroOracles [2] [2] [2] (some 1) (some 1),
        effsOf (some 1) (some 1)) ∧
    effsOf (some 1) (some 1) = effsOf (some 1) (some 1) :=
  have h := ugdoppler_eq zeroOracles [2] [2] [2] (some 1) (some 1) 1 rfl rfl rfl
    (by simp [zeroOracles])
  ⟨h, C9_effects zeroOracles [2] [2] [2] (some 1) (some 1) false _ _ h⟩

/-- C9 (counterexample): a concrete completed call performs I/O (printing the
defaulting notice) and reaches the interactive debug breakpoint, contradicting
the claim that no I/O and no debug-breakpoint inspection happens between input
and return. -/
theorem C9_counterexample :
    (ugdoppler zeroOracles [2] [2] [2] none none false).map Prod.snd =
      some [Effect.printDefaultNotice, Effect.debugBreakpoint] := by
  rw [ugdoppler_eq zeroOracles [2] [2] [2] none none 1 rfl rfl rfl
    (by simp [zeroOracles])]
  simp [effsOf, pyTruthy]

/-- C8: at the input cited in the claim the call completes, and the entire
value returned to the caller is the 4-row matrix `vtotal`; the locally rebound
`obspos_deg` and `lst_mean` variables are not part of the returned value, so no
secondary outputs reach the caller. -/
theorem C8_return_is_matrix_only :
    (ugdoppler zeroOracles [18] [30] [2451545] none none false).map
      (fun p => p.1.length) = some 4 := by
  rw [ugdoppler_eq zeroOracles [18] [30] [2451545] none none 1 rfl rfl rfl
    (by simp [zeroOracles])]
  simp [ugdopplerRows]

/-- With `dec` of length 1 and `ra`, `julday` of length 2, every stage of
`ugdopplerV` succeeds: numpy broadcasting repeats the single declination, so
the mismatched call completes with a full result. -/
theorem ugdopplerV_dec_singleton (O : Oracles) (ra dec julday : List ℝ)
    (hra : ra.length = 2) (hdec : dec.length = 1) (hjd : julday.length = 2)
    (hlst : (O.getLST julday (-(resolveObspos none none).2)).length = 2) :
    (ugdopplerV O ra dec julday none none false).isSome = true := by
  have h12 : ¬ (1 : ℕ) = 2 := by omega
  have hOrb : ∀ x0 x1 x2 : List ℝ,
      rangeLoop (orbitStep O julday x0 x1 x2) 2 =
        some ((List.range 2).map fun i =>
          (dot3 (O.baryvel (julday.getD i 0) 2000).1
              ⟨x0.getD i 0, x1.getD i 0, x2.getD i 0⟩,
           dot3 (O.baryvel (julday.getD i 0) 2000).2
              ⟨x0.getD i 0, x1.getD i 0, x2.getD i 0⟩)) := by
    intro x0 x1 x2
    apply rangeLoop_eq_map
    intro i hi
    rw [orbitStep, getElem?_eq_some_getD julday i (by rw [hjd]; exact hi)]
    rfl
  simp only [ugdopplerV, broadcast2_eq_zipWith, broadcast2_one_left,
    assignRow_eq_self, assignRow_one, lsrSection_eq, hOrb, hra, hdec, hjd, hlst,
    h12, Option.some_bind, List.length_map, List.length_zipWith,
    List.length_range, List.length_replicate, min_self, Bool.false_eq_true,
    if_false, not_false_eq_true, Option.isSome_some]

/-- C3 (counterexample): a call with mismatched input lengths (ra and julday of
length 2, dec of length 1) is not rejected at all — numpy broadcasting reuses
the single declination and the call completes with a result, so no
InputShapeMismatch failure occurs. -/
theorem C3_counterexample :
    [(1 : ℝ), 2].length ≠ [(1 : ℝ)].length ∧
    (ugdoppler zeroOracles [1, 2] [1] [3, 4] none none false).isSome = true := by
  refine ⟨by simp, ?_⟩
  rw [ugdoppler, Option.isSome_map']
  exact ugdopplerV_dec_singleton zeroOracles [1, 2] [1] [3, 4] rfl rfl rfl
    (by simp [zeroOracles])


/-- C3 (amended): `ugdoppler` performs no input-shape validation and raises no
InputShapeMismatch: with the declination array of length 1 while RA and
Julian day have length 2, numpy broadcasting silently reuses the single
declination and the call completes with a full result; a mismatch that cannot
broadcast fails only inside the numeric computation with a generic numpy shape
error, never with a dedicated fail-fast check. -/
theorem C3_no_shape_validation (O : Oracles) (ra dec julday : List ℝ)
    (hra : ra.length = 2) (hdec : dec.length = 1) (hjd : julday.length = 2)
    (hlst : (O.getLST julday (-(resolveObspos none none).2)).length = 2) :
    ra.length ≠ dec.length ∧
    (ugdoppler O ra dec julday none none false).isSome = true := by
  refine ⟨by omega, ?_⟩
  rw [ugdoppler, Option.isSome_map']
  exact ugdopplerV_dec_singleton O ra dec julday hra hdec hjd hlst

theorem C3_no_shape_validation_witness :
    ([(5 : ℝ), 6].length = 2 ∧ [(7 : ℝ)].length = 1 ∧ [(8 : ℝ), 9].length = 2 ∧
      (zeroOracles.getLST [(8 : ℝ), 9] (-(resolveObspos none none).2)).length = 2) ∧
    ([(5 : ℝ), 6].length ≠ [(7 : ℝ)].length ∧
      (ugdoppler zeroOracles [5, 6] [7] [8, 9] none none false).isSome = true) :=
  ⟨⟨rfl, rfl, rfl, by simp [zeroOracles]⟩,
   C3_no_shape_validation zeroOracles [5, 6] [7] [8, 9] rfl rfl rfl
     (by simp [zeroOracles])⟩

theorem arctan2_mem_Ioc (y x : ℝ) :
    -Real.pi < arctan2 y x ∧ arctan2 y x ≤ Real.pi := by
  have h := Complex.arg_mem_Ioc (↑x + ↑y * Complex.I)
  exact ⟨h.1, h.2⟩

theorem arctan2_cos_sin_smul {c a : ℝ} (hc : 0 < c)
    (ha1 : -Real.pi < a) (ha2 : a ≤ Real.pi) :
    arctan2 (c * Real.sin a) (c * Real.cos a) = a := by
  unfold arctan2
  have h : ((c * Real.cos a : ℝ) : ℂ) + ((c * Real.sin a : ℝ) : ℂ) * Complex.I =
      (c : ℂ) * (Complex.cos a + Complex.sin a * Complex.I) := by
    rw [← Complex.ofReal_cos, ← Complex.ofReal_sin]
    push_cast
    ring
  rw [h, Complex.arg_real_mul _ hc]
  exact Complex.arg_cos_add_sin_mul_I (Set.mem_Ioc.mpr ⟨ha1, ha2⟩)

theorem arctan2_cos_sin_smul_shift {c a : ℝ} (hc : 0 < c)
    (h1 : Real.pi < a) (h2 : a ≤ 3 * Real.pi) :
    arctan2 (c * Real.sin a) (c * Real.cos a) = a - 2 * Real.pi := by
  have hca : Real.cos a = Real.cos (a - 2 * Real.pi) := by
    conv_lhs => rw [show a = a - 2 * Real.pi + 2 * Real.pi by ring]
    rw [Real.cos_add_two_pi]
  have hsa : Real.sin a = Real.sin (a - 2 * Real.pi) := by
    conv_lhs => rw [show a = a - 2 * Real.pi + 2 * Real.pi by ring]
    rw [Real.sin_add_two_pi]
  rw [hca, hsa]
  exact arctan2_cos_sin_smul hc (by linarith) (by linarith)

theorem arctan2_cos_sin {a : ℝ} (ha1 : -Real.pi < a) (ha2 : a ≤ Real.pi) :
    arctan2 (Real.sin a) (Real.cos a) = a := by
  have h := arctan2_cos_sin_smul (c := 1) one_pos ha1 ha2
  simpa using h

theorem arctan2_cos_sin_shift {a : ℝ} (h1 : Real.pi < a) (h2 : a ≤ 3 * Real.pi) :
    arctan2 (Real.sin a) (Real.cos a) = a - 2 * Real.pi := by
  have h := arctan2_cos_sin_smul_shift (c := 1) one_pos h1 h2
  simpa using h

/-- The degree-branch RA normalization sends any atan2 value in (-π, π] into
[0, 360) degrees. -/
theorem norm360_mem {t : ℝ} (h1 : -Real.pi < t) (h2 : t ≤ Real.pi) :
    0 ≤ t / dtor + (if t / dtor < 0 then (1 : ℝ) else 0) * 360 ∧
      t / dtor + (if t / dtor < 0 then (1 : ℝ) else 0) * 360 < 360 := by
  have hpi := Real.pi_pos
  have hu1 : -180 < t / dtor := by
    rw [dtor, lt_div_iff₀ (by positivity)]
    nlinarith
  have hu2 : t / dtor ≤ 180 := by
    rw [dtor, div_le_iff₀ (by positivity)]
    nlinarith
  split_ifs with h
  · constructor <;> nlinarith
  · push_neg at h
    constructor <;> nlinarith

/-- Every degree-mode output RA of `precessPoint` lies in [0, 360). -/
theorem precessPoint_deg_mem (a d e1 e2 : ℝ) (fk4 : Bool) :
    0 ≤ (precessPoint a d e1 e2 fk4 false).1 ∧
      (precessPoint a d e1 e2 fk4 false).1 < 360 := by
  simp only [precessPoint, Bool.false_eq_true, if_false]
  exact norm360_mem (arctan2_mem_Ioc _ _).1 (arctan2_mem_Ioc _ _).2


/-- C4 (amended): in degree mode every returned right ascension is normalized
into [0, 360) — any negative atan2 result gets a full turn added; the radian
branch performs no such normalization and can return a negative RA. -/
theorem C4_ra_normalization (ra dec : List ℝ) (hl : ra.length = dec.length)
    (e1 e2 : ℝ) (fk4 : Bool) :
    ∃ ras decs, precess ra dec e1 e2 fk4 false = some (ras, decs) ∧
      ∀ i, i < ra.length → 0 ≤ ras.getD i 0 ∧ ras.getD i 0 < 360 := by
  refine ⟨(precessDeg ra dec e1 e2 fk4).1, (precessDeg ra dec e1 e2 fk4).2,
    precess_deg_eq hl e1 e2 fk4, ?_⟩
  intro i hi
  rw [(precessDeg_getD hl e1 e2 fk4 i hi).1]
  exact precessPoint_deg_mem (ra.getD i 0) (dec.getD i 0) e1 e2 fk4

theorem C4_ra_normalization_witness :
    ([(100 : ℝ), 200].length = [(10 : ℝ), -20].length) ∧
    (∃ ras decs, precess [(100 : ℝ), 200] [(10 : ℝ), -20] 1950 2000 false false =
        some (ras, decs) ∧
      ∀ i, i < [(100 : ℝ), 200].length → 0 ≤ ras.getD i 0 ∧ ras.getD i 0 < 360) :=
  ⟨rfl, C4_ra_normalization [100, 200] [10, -20] rfl 1950 2000 false⟩


/-- C4 (counterexample): in radian mode the output RA is not normalized into
[0, 2π): precessing (ra = 5π/3, dec = 0) between equal epochs returns
RA = -π/3, a negative right ascension. -/
theorem C4_counterexample :
    (precess [5 * Real.pi / 3] [0] 2000 2000 false true).map (fun p => p.1) =
      some [-(Real.pi / 3)] ∧ -(Real.pi / 3) < 0 := by
  have hpi := Real.pi_pos
  refine ⟨?_, by simpa using by positivity⟩
  rw [precess_radian_scalar]
  simp only [Option.map_some']
  have h1 : (precessPoint (5 * Real.pi / 3) 0 2000 2000 false true).1 =
      -(Real.pi / 3) := by
    simp only [precessPoint, premat_self, dot3]
    norm_num
    rw [arctan2_cos_sin_shift (by nlinarith) (by nlinarith)]
    ring
  rw [h1]


/-- Degree-mode `precess` on a scalar (length-1) pair computes exactly
`precessPoint`. -/
theorem precess_deg_scalar (a d e1 e2 : ℝ) (fk4 : Bool) :
    precess [a] [d] e1 e2 fk4 false =
      some ([(precessPoint a d e1 e2 fk4 false).1],
            [(precessPoint a d e1 e2 fk4 false).2]) := by
  simp [precess, precessPoint, broadcast2, assignRow, lin3, dot3, arctan2]

/-- At equal epochs the radian-mode per-point precession is the identity on
(-π, π] × (-π/2, π/2). -/
theorem precessPoint_self_radian (E : ℝ) (fk4 : Bool) {a d : ℝ}
    (ha1 : -Real.pi < a) (ha2 : a ≤ Real.pi)
    (hd1 : -(Real.pi / 2) < d) (hd2 : d < Real.pi / 2) :
    precessPoint a d E E fk4 true = (a, d) := by
  have hc : 0 < Real.cos d := Real.cos_pos_of_mem_Ioo ⟨hd1, hd2⟩
  have harc : Real.arcsin (Real.sin d) = d :=
    Real.arcsin_sin (by linarith) (by linarith)
  simp only [precessPoint, premat_self, dot3]
  norm_num
  rw [arctan2_cos_sin_smul hc ha1 ha2, harc]
  exact ⟨rfl, rfl⟩

/-- At equal epochs the degree-mode per-point precession is the identity on
[0, 360) × (-90, 90). -/
theorem precessPoint_self_degrees (E : ℝ) (fk4 : Bool) {a d : ℝ}
    (ha1 : 0 ≤ a) (ha2 : a < 360) (hd1 : -90 < d) (hd2 : d < 90) :
    precessPoint a d E E fk4 false = (a, d) := by
  have hpi := Real.pi_pos
  have hdtor : (0 : ℝ) < dtor := by rw [dtor]; positivity
  have hdR1 : -(Real.pi / 2) < d * dtor := by rw [dtor]; nlinarith
  have hdR2 : d * dtor < Real.pi / 2 := by rw [dtor]; nlinarith
  have hc : 0 < Real.cos (d * dtor) := Real.cos_pos_of_mem_Ioo ⟨hdR1, hdR2⟩
  have harc : Real.arcsin (Real.sin (d * dtor)) = d * dtor :=
    Real.arcsin_sin (by linarith) (by linarith)
  have hdd : d * dtor / dtor = d := mul_div_cancel_right₀ d (ne_of_gt hdtor)
  have hda : a * dtor / dtor = a := mul_div_cancel_right₀ a (ne_of_gt hdtor)
  simp only [precessPoint, premat_self, dot3]
  norm_num
  rw [harc, hdd]
  rcases le_or_lt a 180 with hle | hgt
  · have haR1 : -Real.pi < a * dtor := by rw [dtor]; nlinarith
    have haR2 : a * dtor ≤ Real.pi := by rw [dtor]; nlinarith
    rw [arctan2_cos_sin_smul hc haR1 haR2, hda, if_neg (by linarith)]
    norm_num
  · have haR1 : Real.pi < a * dtor := by rw [dtor]; nlinarith
    have haR2 : a * dtor ≤ 3 * Real.pi := by rw [dtor]; nlinarith
    have hs : (a * dtor - 2 * Real.pi) / dtor = a - 360 := by
      rw [dtor]
      field_simp
      ring
    rw [arctan2_cos_sin_smul_shift hc haR1 haR2, hs, if_pos (by linarith)]
    norm_num


/-- C6 (amended): at equal epochs `precess` is the identity, in both FK4 and
FK5 modes, for degree-mode inputs with RA in [0, 360) and Dec in (-90, 90) and
for radian-mode inputs with RA in (-π, π] and Dec in (-π/2, π/2); a radian-mode
RA outside (-π, π] is instead returned as its principal atan2 value, because
the radian branch performs no RA normalization. -/
theorem C6_identity_equal_epochs (E : ℝ) (fk4 : Bool) (a d : ℝ) :
    (0 ≤ a → a < 360 → -90 < d → d < 90 →
      precess [a] [d] E E fk4 false = some ([a], [d])) ∧
    (-Real.pi < a → a ≤ Real.pi → -(Real.pi / 2) < d → d < Real.pi / 2 →
      precess [a] [d] E E fk4 true = some ([a], [d])) := by
  constructor
  · intro h1 h2 h3 h4
    rw [precess_deg_scalar, precessPoint_self_degrees E fk4 h1 h2 h3 h4]
  · intro h1 h2 h3 h4
    rw [precess_radian_scalar, precessPoint_self_radian E fk4 h1 h2 h3 h4]

theorem C6_identity_equal_epochs_witness :
    ((0 : ℝ) ≤ 270 ∧ (270 : ℝ) < 360 ∧ (-90 : ℝ) < 10 ∧ (10 : ℝ) < 90) ∧
    precess [(270 : ℝ)] [(10 : ℝ)] 1985 1985 true false =
      some ([(270 : ℝ)], [(10 : ℝ)]) :=
  ⟨⟨by norm_num, by norm_num, by norm_num, by norm_num⟩,
   (C6_identity_equal_epochs 1985 true 270 10).1 (by norm_num) (by norm_num)
     (by norm_num) (by norm_num)⟩

/-- C6 (counterexample): identity precession fails in radian mode for a valid
RA in [0, 2π): at equal epochs (1950, 1950, FK4) the input RA = 7π/6 comes
back as -5π/6 ≠ 7π/6. -/
theorem C6_counterexample :
    (precess [7 * Real.pi / 6] [0] 1950 1950 true true).map (fun p => p.1) =
      some [-(5 * Real.pi / 6)] ∧
    -(5 * Real.pi / 6) ≠ 7 * Real.pi / 6 := by
  have hpi := Real.pi_pos
  constructor
  · rw [precess_radian_scalar]
    simp only [Option.map_some']
    have h1 : (precessPoint (7 * Real.pi / 6) 0 1950 1950 true true).1 =
        -(5 * Real.pi / 6) := by
      simp only [precessPoint, premat_self, dot3]
      norm_num
      rw [arctan2_cos_sin_shift (by nlinarith) (by nlinarith)]
      ring
    rw [h1]
  · intro h
    nlinarith


/-- C7 (counterexample): in radian mode `precess` does not accept equal-length
vector input — the `float()` coercion raises on a length-2 array, so the call
fails instead of returning elementwise results. -/
theorem C7_counterexample :
    precess [(0 : ℝ), 1] [(0 : ℝ), 1] 1950 2000 false true = none := by
  simp [precess]

/-- C7 (amended): degree-mode `precess` accepts scalar or equal-length vector
RA/Dec and operates elementwise; radian mode accepts only scalar (length-1)
input, since the `float()` coercion fails on any longer vector. -/
theorem C7_vector_handling (ra dec : List ℝ) (hl : ra.length = dec.length)
    (e1 e2 : ℝ) (fk4 : Bool) (a d : ℝ) :
    (∃ ras decs, precess ra dec e1 e2 fk4 false = some (ras, decs) ∧
      ras.length = ra.length ∧ decs.length = ra.length ∧
      ∀ i, i < ra.length →
        ras.getD i 0 = (precessPoint (ra.getD i 0) (dec.getD i 0) e1 e2 fk4 false).1 ∧
        decs.getD i 0 =
          (precessPoint (ra.getD i 0) (dec.getD i 0) e1 e2 fk4 false).2) ∧
    precess [a] [d] e1 e2 fk4 true =
      some ([(precessPoint a d e1 e2 fk4 true).1],
            [(precessPoint a d e1 e2 fk4 true).2]) :=
  ⟨⟨(precessDeg ra dec e1 e2 fk4).1, (precessDeg ra dec e1 e2 fk4).2,
    precess_deg_eq hl e1 e2 fk4, (precessDeg_length hl e1 e2 fk4).1,
    (precessDeg_length hl e1 e2 fk4).2,
    fun i hi => precessDeg_getD hl e1 e2 fk4 i hi⟩,
   precess_radian_scalar a d e1 e2 fk4⟩

theorem C7_vector_handling_witness :
    ([(10 : ℝ), 20].length = [(30 : ℝ), 40].length) ∧
    ((∃ ras decs, precess [(10 : ℝ), 20] [(30 : ℝ), 40] 1950 2000 true false =
        some (ras, decs) ∧
      ras.length = [(10 : ℝ), 20].length ∧ decs.length = [(10 : ℝ), 20].length ∧
      ∀ i, i < [(10 : ℝ), 20].length →
        ras.getD i 0 = (precessPoint ([(10 : ℝ), 20].getD i 0)
          ([(30 : ℝ), 40].getD i 0) 1950 2000 true false).1 ∧
        decs.getD i 0 = (precessPoint ([(10 : ℝ), 20].getD i 0)
          ([(30 : ℝ), 40].getD i 0) 1950 2000 true false).2) ∧
    precess [(1 : ℝ)] [(2 : ℝ)] 1950 2000 true true =
      some ([(precessPoint 1 2 1950 2000 true true).1],
            [(precessPoint 1 2 1950 2000 true true).2])) :=
  ⟨rfl, C7_vector_handling [10, 20] [30, 40] rfl 1950 2000 true 1 2⟩

end
